import Mathlib

/-!
Verification of the Tag-Aware Matching & Consistency Engine of the kids-calendar
application (src/App.jsx), via a shallow embedding in Lean 4.

Modelling conventions:
* Instants (JS `Date` values) are natural numbers counting minutes; a calendar
  day is 1440 minutes, so `atStartOfDay`/`ymd` bucketing becomes division by
  1440 (`dayIndex`).  Date-only comparison of two instants is comparison of
  their day indices.
* JS strings are Lean `String`s; `trim`, `toLowerCase` and `includes` are
  re-implemented over the underlying character list so that all definitions
  reduce inside the kernel (`clampStr`, `lowerStr`, `strIncludes`).
* `localeCompare` on names is modelled as lexicographic comparison of
  code points (`charsLe`).
* JS `Array.prototype.sort` is a stable sort driven by a comparator; it is
  modelled by `List.insertionSort`, which is stable.
* `Array.from(new Set(xs))` (dedupe keeping first occurrences) is `dedupe`.
* A JS object used as a string-keyed map (`suggestSelection`, `suggestNotes`,
  `tagCatalog`) is an association list whose keys are unique in any state the
  program can build.
* React state (`useState` setters) is made explicit: the relevant pieces of
  component state form the record `AppState`, and each handler becomes a pure
  function from state to state.
-/

/-! ### Character/string primitives (kernel-reducible counterparts of the JS ones) -/

/-- Whitespace test used by the model of `String.prototype.trim`. -/
def isWsChar (c : Char) : Bool :=
  c == ' ' || c == '\t' || c == '\n' || c == '\r'

/-- Model of the source's `clampStr`: `(s ?? "").toString().trim()`. -/
def clampStr (s : String) : String :=
  ⟨((s.data.dropWhile isWsChar).reverse.dropWhile isWsChar).reverse⟩

/-- Model of `String.prototype.toLowerCase` (ASCII case folding). -/
def lowerStr (s : String) : String :=
  ⟨s.data.map Char.toLower⟩

/-- Test whether `needle` occurs as a contiguous run inside the second list.
Model of `String.prototype.includes`. -/
def strIncludesAux (needle : List Char) : List Char → Bool
  | [] => needle.isEmpty
  | c :: rest => needle.isPrefixOf (c :: rest) || strIncludesAux needle rest

/-- Model of `hay.includes(needle)` on strings. -/
def strIncludes (hay needle : String) : Bool :=
  strIncludesAux needle.data hay.data

/-- Lexicographic (code-point) comparison of character lists; model of the
`localeCompare`-based ascending name order. -/
def charsLe : List Char → List Char → Bool
  | [], _ => true
  | _ :: _, [] => false
  | a :: as, b :: bs =>
      decide (a.toNat < b.toNat) || (a.toNat == b.toNat && charsLe as bs)

theorem charsLe_total : ∀ as bs : List Char, charsLe as bs = true ∨ charsLe bs as = true := by
  intro as
  induction as with
  | nil => intro bs; left; rfl
  | cons a as ih =>
      intro bs
      cases bs with
      | nil => right; rfl
      | cons b bs =>
          rcases Nat.lt_trichotomy a.toNat b.toNat with h | h | h
          · left; simp [charsLe, h]
          · rcases ih bs with h2 | h2
            · left; simp [charsLe, h, h2]
            · right; simp [charsLe, h.symm, h2]
          · right; simp [charsLe, h]

theorem charsLe_trans : ∀ as bs cs : List Char,
    charsLe as bs = true → charsLe bs cs = true → charsLe as cs = true := by
  intro as
  induction as with
  | nil => intro bs cs _ _; rfl
  | cons a as ih =>
      intro bs cs hab hbc
      cases bs with
      | nil => simp [charsLe] at hab
      | cons b bs =>
          cases cs with
          | nil => simp [charsLe] at hbc
          | cons c cs =>
              simp only [charsLe, Bool.or_eq_true, Bool.and_eq_true, decide_eq_true_eq,
                beq_iff_eq] at hab hbc ⊢
              rcases hab with hab | ⟨hab, hab2⟩
              · rcases hbc with hbc | ⟨hbc, _⟩
                · exact Or.inl (Nat.lt_trans hab hbc)
                · exact Or.inl (hbc ▸ hab)
              · rcases hbc with hbc | ⟨hbc, hbc2⟩
                · exact Or.inl (hab ▸ hbc)
                · exact Or.inr ⟨hab.trans hbc, ih bs cs hab2 hbc2⟩

/-- First-occurrence deduplication, the semantics of `Array.from(new Set(xs))`. -/
def dedupeAux [DecidableEq α] (seen : List α) : List α → List α
  | [] => []
  | a :: l => if a ∈ seen then dedupeAux seen l else a :: dedupeAux (a :: seen) l

/-- Keep the first occurrence of every element, in order. -/
def dedupe [DecidableEq α] (l : List α) : List α := dedupeAux [] l

theorem mem_dedupeAux [DecidableEq α] (x : α) :
    ∀ (l seen : List α), x ∈ dedupeAux seen l ↔ x ∈ l ∧ x ∉ seen := by
  intro l
  induction l with
  | nil => intro seen; simp [dedupeAux]
  | cons a l ih =>
      intro seen
      by_cases h : a ∈ seen
      · simp only [dedupeAux, if_pos h, ih, List.mem_cons]
        constructor
        · rintro ⟨hx, hns⟩; exact ⟨Or.inr hx, hns⟩
        · rintro ⟨hx | hx, hns⟩
          · exact absurd (hx ▸ h) hns
          · exact ⟨hx, hns⟩
      · simp only [dedupeAux, if_neg h, List.mem_cons, ih]
        constructor
        · rintro (rfl | ⟨hx, hns⟩)
          · exact ⟨Or.inl rfl, h⟩
          · exact ⟨Or.inr hx, fun hs => hns (Or.inr hs)⟩
        · rintro ⟨hx | hx, hns⟩
          · exact Or.inl hx
          · by_cases hxa : x = a
            · exact Or.inl hxa
            · exact Or.inr ⟨hx, fun hs => hs.elim hxa hns⟩

theorem mem_dedupe [DecidableEq α] (x : α) (l : List α) : x ∈ dedupe l ↔ x ∈ l := by
  simp [dedupe, mem_dedupeAux]

/-! ### Data model -/

/-- One entry of an event's participant list: `{ kidId, status }`.
`status` cycles through 0 (Pending), 1 (InProgress), 2 (Confirmed). -/
structure Participation where
  kidId : String
  status : Nat
deriving Repr, DecidableEq

/-- A participant ("kid"). -/
structure Kid where
  id : String
  name : String
  tags : List String
  createdAt : Nat
deriving Repr, DecidableEq

/-- An event.  `end_` stands for the source's `end` field (a Lean keyword);
`suggestNotes` is the string-keyed note map as an association list. -/
structure Event where
  id : String
  title : String
  start : Nat
  end_ : Nat
  tags : List String
  participants : List Participation
  suggestedAt : Option Nat
  suggestNotes : List (String × String)
deriving Repr, DecidableEq

/-- The pieces of React component state touched by the engine: the tag catalog,
the roster, the event list, every transient tag-selection buffer, and the
create-event form fields (dates as day numbers, times as minutes). -/
structure AppState where
  tagCatalog : List (String × List String)
  kids : List Kid
  events : List Event
  kidFilterTags : List String
  newKidTags : List String
  editKidTags : List String
  evTags : List String
  editEventTags : List String
  listFilterTags : List String
  evTitle : String
  evStartDate : Nat
  evStartTime : Nat
  evEndDate : Nat
  evEndTime : Nat
deriving Repr, DecidableEq

/-- Source `intersectionCount(a, bSet)`: how many entries of `a` lie in `bSet`. -/
def intersectionCount (a bSet : List String) : Nat :=
  a.countP (fun t => bSet.contains t)

/-- The kid ids currently in an event's participant list (the `assigned`/
`existing` sets of the source). -/
def existingIds (ev : Event) : List String :=
  ev.participants.map (·.kidId)

/-- Day index of an instant (`ymd ∘ atStartOfDay` collapses an instant to its
calendar day; with minute-valued instants that is division by 1440). -/
def dayIndex (t : Nat) : Nat := t / 1440

/-- Source `combineDateTime(dateStr, timeStr)` under the minute model. -/
def combineDateTime (date time : Nat) : Nat := 1440 * date + time

/-! ### Ordering relations used by the sorts -/

/-- Comparator `(a, b) => a.start - b.start` as a relation: ascending start. -/
def startLE (a b : Event) : Prop := a.start ≤ b.start

instance : DecidableRel startLE := fun x y => Nat.decLe x.start y.start

instance : IsTotal Event startLE := ⟨fun a b => Nat.le_total a.start b.start⟩

instance : IsTrans Event startLE := ⟨fun _ _ _ h1 h2 => Nat.le_trans h1 h2⟩

/-- Comparator `(a, b) => b.score - a.score || a.kid.name.localeCompare(b.kid.name)`
as a relation on (kid, score) pairs: descending score, ties by ascending name. -/
def rankLE (a b : Kid × Nat) : Prop :=
  b.2 < a.2 ∨ (a.2 = b.2 ∧ charsLe a.1.name.data b.1.name.data = true)

instance : DecidableRel rankLE := fun a b => by
  unfold rankLE; exact inferInstance

instance : IsTotal (Kid × Nat) rankLE := by
  refine ⟨fun a b => ?_⟩
  rcases Nat.lt_trichotomy a.2 b.2 with h | h | h
  · exact Or.inr (Or.inl h)
  · rcases charsLe_total a.1.name.data b.1.name.data with h2 | h2
    · exact Or.inl (Or.inr ⟨h, h2⟩)
    · exact Or.inr (Or.inr ⟨h.symm, h2⟩)
  · exact Or.inl (Or.inl h)

instance : IsTrans (Kid × Nat) rankLE := by
  refine ⟨fun a b c hab hbc => ?_⟩
  rcases hab with hab | ⟨hab, hab2⟩
  · rcases hbc with hbc | ⟨hbc, _⟩
    · exact Or.inl (Nat.lt_trans hbc hab)
    · exact Or.inl (hbc ▸ hab)
  · rcases hbc with hbc | ⟨hbc, hbc2⟩
    · exact Or.inl (hab ▸ hbc)
    · exact Or.inr ⟨hab.trans hbc, charsLe_trans _ _ _ hab2 hbc2⟩

/-! ### PropagationEngine: `renameTagEverywhere` / `deleteTagEverywhere` -/

/-- Source `replaceIn`: `(arr ?? []).map((t) => (t === o ? n : t))`. -/
def replaceIn (o n : String) (arr : List String) : List String :=
  arr.map (fun t => if t = o then n else t)

/-- Source `renameTagEverywhere(oldTag, newTag)`.  After the guard it rewrites
the catalog, the roster, the events and five tag-selection buffers
(`kidFilterTags`, `newKidTags`, `editKidTags`, `evTags`, `editEventTags`) with
replace-then-dedupe; `listFilterTags` is not touched by the source. -/
def renameTagEverywhere (st : AppState) (oldTag newTag : String) : AppState :=
  let o := clampStr oldTag
  let n := clampStr newTag
  if o = "" ∨ n = "" ∨ o = n then st
  else
    { st with
      tagCatalog := st.tagCatalog.map (fun e => (e.1, dedupe (replaceIn o n e.2))),
      kids := st.kids.map (fun k => { k with tags := dedupe (replaceIn o n k.tags) }),
      events := st.events.map (fun e => { e with tags := dedupe (replaceIn o n e.tags) }),
      kidFilterTags := dedupe (replaceIn o n st.kidFilterTags),
      newKidTags := dedupe (replaceIn o n st.newKidTags),
      editKidTags := dedupe (replaceIn o n st.editKidTags),
      evTags := dedupe (replaceIn o n st.evTags),
      editEventTags := dedupe (replaceIn o n st.editEventTags) }

/-- Source `deleteTagEverywhere(tag)`: filters the tag out of the catalog, the
roster, the events and the same five buffers; `listFilterTags` is not touched
by the source. -/
def deleteTagEverywhere (st : AppState) (tag : String) : AppState :=
  let t := clampStr tag
  if t = "" then st
  else
    { st with
      tagCatalog := st.tagCatalog.map (fun e => (e.1, e.2.filter (fun x => x ≠ t))),
      kids := st.kids.map (fun k => { k with tags := k.tags.filter (fun x => x ≠ t) }),
      events := st.events.map (fun e => { e with tags := e.tags.filter (fun x => x ≠ t) }),
      kidFilterTags := st.kidFilterTags.filter (fun x => x ≠ t),
      newKidTags := st.newKidTags.filter (fun x => x ≠ t),
      editKidTags := st.editKidTags.filter (fun x => x ≠ t),
      evTags := st.evTags.filter (fun x => x ≠ t),
      editEventTags := st.editEventTags.filter (fun x => x ≠ t) }

/-! ### Event creation -/

/-- Source `createEvent`.  Returns the next state together with the rejection
message shown by `alert` when validation fails (no state change in that case).
`newId` stands for `crypto.randomUUID()`. -/
def createEvent (st : AppState) (newId : String) : AppState × Option String :=
  let t := clampStr st.evTitle
  if t = "" then (st, some "กรุณาใส่ชื่อกิจกรรม")
  else
    let start := combineDateTime st.evStartDate st.evStartTime
    let stop := combineDateTime st.evEndDate st.evEndTime
    if stop ≤ start then (st, some "วัน/เวลาเริ่มต้องก่อนวัน/เวลาจบ")
    else
      ({ st with
          events := st.events ++
            [{ id := newId, title := t, start := start, end_ := stop,
               tags := st.evTags, participants := [], suggestedAt := none,
               suggestNotes := [] }],
          evTitle := "" }, none)

/-! ### AssignmentStateMachine: `confirmSuggested` -/

/-- The picked ids of a suggest-selection object:
`Object.entries(sel).filter(([, v]) => v).map(([id]) => id)`. -/
def pickedOf (sel : List (String × Bool)) : List String :=
  (sel.filter (·.2)).map (·.1)

/-- The participations `confirmSuggested` appends: picked ids not already in
the event's participant list, each with status 0 (Pending). -/
def toAddOf (ev : Event) (picked : List String) : List Participation :=
  (picked.filter (fun i => !(existingIds ev).contains i)).map
    (fun i => { kidId := i, status := 0 })

/-- Source `confirmSuggested`: looks up the active event, computes the picked
ids and the additions, then maps over the event list setting
`suggestedAt: e.suggestedAt ?? now` and appending the additions on the
matching event. -/
def confirmSuggested (events : List Event) (evId : String)
    (sel : List (String × Bool)) (now : Nat) : List Event :=
  match events.find? (fun e => e.id == evId) with
  | none => events
  | some ev =>
      let toAdd := toAddOf ev (pickedOf sel)
      events.map (fun e =>
        if e.id == ev.id then
          { e with suggestedAt := some (e.suggestedAt.getD now),
                   participants := e.participants ++ toAdd }
        else e)

/-! ### MatchScorer: `suggestedKids` -/

/-- The query test of `suggestedKids`: with `q` already trimmed and lowercased,
an empty query matches everyone, otherwise the query must be a substring of
the lowercased name or of some lowercased tag. -/
def kidMatchesQuery (q : String) (k : Kid) : Bool :=
  q.data.isEmpty ||
    (strIncludes (lowerStr k.name) q || k.tags.any (fun t => strIncludes (lowerStr t) q))

/-- Source `suggestedKids` (the `rankCandidates` of the spec): drop assigned
kids, apply the query filter, score against the event tags, drop zero scores,
then sort by descending score with ties by ascending name. -/
def suggestedKids (ev : Event) (kids : List Kid) (suggestSearch : String) :
    List (Kid × Nat) :=
  let q := lowerStr (clampStr suggestSearch)
  List.insertionSort rankLE
    ((((kids.filter (fun k => !(existingIds ev).contains k.id)).filter
        (fun k => kidMatchesQuery q k)).map
        (fun k => (k, intersectionCount k.tags ev.tags))).filter
        (fun x => decide (0 < x.2)))

/-- The candidate list as the spec describes it (§4.3): the kids that are not
assigned, match the query, and have positive score, each paired with its
score, in roster order.  Used to compare the implementation against. -/
def specCandidates (ev : Event) (kids : List Kid) (suggestSearch : String) :
    List (Kid × Nat) :=
  (kids.filter (fun k =>
      !(existingIds ev).contains k.id &&
      kidMatchesQuery (lowerStr (clampStr suggestSearch)) k &&
      decide (0 < intersectionCount k.tags ev.tags))).map
    (fun k => (k, intersectionCount k.tags ev.tags))

/-! ### AttentionDetector: `attentionById` and `detailNewMatches` -/

/-- The per-event body of the source's `attentionById` memo: 0 when the
baseline is unset (or stored as the falsy 0) or the event has no tags,
otherwise the number of unassigned kids created after the baseline whose
score against the event tags exceeds 1. -/
def attentionCount (ev : Event) (kids : List Kid) : Nat :=
  let baseline := ev.suggestedAt.getD 0
  if baseline = 0 then 0
  else if ev.tags.isEmpty then 0
  else
    kids.countP (fun k =>
      !(existingIds ev).contains k.id &&
      decide (baseline < k.createdAt) &&
      decide (1 < intersectionCount k.tags ev.tags))

/-- Source `attentionById`: the badge count for every event. -/
def attentionById (events : List Event) (kids : List Kid) : List (String × Nat) :=
  events.map (fun ev => (ev.id, attentionCount ev kids))

/-- Source `detailNewMatches`: the detail-display list for one event — the same
kids the badge counts, paired with their scores and sorted by descending score
with ties by ascending name. -/
def detailNewMatches (ev : Event) (kids : List Kid) : List (Kid × Nat) :=
  let baseline := ev.suggestedAt.getD 0
  if baseline = 0 then []
  else if ev.tags.isEmpty then []
  else
    List.insertionSort rankLE
      (kids.filterMap (fun k =>
        if (existingIds ev).contains k.id then none
        else if k.createdAt ≤ baseline then none
        else if 1 < intersectionCount k.tags ev.tags then
          some (k, intersectionCount k.tags ev.tags)
        else none))

/-! ### VisibilityFilter / Projection: day buckets -/

/-- Whether an event touches calendar day `d` (the loop
`for (let d = atStartOfDay(start); d <= atStartOfDay(end); d = addDays(d, 1))`
visits exactly the days between the start day and the end day inclusive). -/
def touchesDay (ev : Event) (d : Nat) : Bool :=
  decide (dayIndex ev.start ≤ d) && decide (d ≤ dayIndex ev.end_)

/-- The bucket of calendar day `d` in the month grid's `eventsByDay` map: the
building loop pushes each event, in list order, onto every day it touches, and
each bucket is then sorted by start instant (stably).  So the bucket for `d`
is the stable start-sort of the events touching `d`. -/
def eventsByDayBucket (events : List Event) (d : Nat) : List Event :=
  List.insertionSort startLE (events.filter (fun ev => touchesDay ev d))

/-- Source `norm`: `String(s ?? "").toLowerCase().trim()`. -/
def normStr (s : String) : String := clampStr (lowerStr s)

/-- Model of `parts.join(" | ")`. -/
def joinBar (parts : List String) : String :=
  ⟨((parts.map (fun p => p.data)).intersperse " | ".data).flatten⟩

/-- Name lookup through `kidById`, with `""` for a dangling reference. -/
def kidName (kids : List Kid) (i : String) : String :=
  match kids.find? (fun k => k.id == i) with
  | some k => k.name
  | none => ""

/-- Source `listViewEvents`: AND tag filter plus free-text search over title,
tags, participant names and note values, then sort ascending by start. -/
def listViewEvents (events : List Event) (kids : List Kid)
    (listFilterTags : List String) (listSearch : String) : List Event :=
  let q := normStr listSearch
  let matchTags := fun (ev : Event) => listFilterTags.all (fun t => ev.tags.contains t)
  let matchQuery := fun (ev : Event) =>
    q.data.isEmpty ||
      strIncludes
        (joinBar ((ev.title :: ev.tags ++
            ev.participants.map (fun p => kidName kids p.kidId) ++
            ev.suggestNotes.map (fun nt => nt.2)).map normStr))
        q
  List.insertionSort startLE (events.filter (fun ev => matchTags ev && matchQuery ev))

/-- Source `listViewGrouped`: group the (already filtered and sorted) List
View events by the calendar day of their `start` only, each group sorted by
start instant, groups ordered by ascending day. -/
def listViewGrouped (evs : List Event) : List (Nat × List Event) :=
  (List.insertionSort (· ≤ ·) (dedupe (evs.map (fun ev => dayIndex ev.start)))).map
    (fun d => (d, List.insertionSort startLE (evs.filter (fun ev => dayIndex ev.start == d))))

/-! ### Concrete states used by the counterexamples and witnesses -/

/-- A small application state: the tag "old" sits in the catalog, in a kid's
tag list, in the kid filter buffer and in the List View filter buffer. -/
def stBug : AppState :=
  { tagCatalog := [("Region", ["old", "south"])]
    kids := [{ id := "k1", name := "A", tags := ["old"], createdAt := 1 }]
    events := []
    kidFilterTags := ["old"]
    newKidTags := []
    editKidTags := []
    evTags := []
    editEventTags := []
    listFilterTags := ["old"]
    evTitle := ""
    evStartDate := 0
    evStartTime := 540
    evEndDate := 0
    evEndTime := 600 }

/-- An event spanning two calendar days: day 0 at 18:00 to day 1 at 09:00. -/
def evSpan : Event :=
  { id := "e1", title := "camp", start := 1080, end_ := 1980, tags := [],
    participants := [], suggestedAt := none, suggestNotes := [] }

/-- An event with a set baseline (5) and two tags. -/
def evW : Event :=
  { id := "e2", title := "t", start := 0, end_ := 60, tags := ["a", "b"],
    participants := [], suggestedAt := some 5, suggestNotes := [] }

/-- A kid created after `evW`'s baseline who shares both of its tags. -/
def kidW : Kid := { id := "k2", name := "B", tags := ["a", "b"], createdAt := 7 }

/-- An event whose stored baseline is the falsy timestamp 0. -/
def evZero : Event :=
  { id := "e0", title := "z", start := 0, end_ := 60, tags := ["a", "b"],
    participants := [], suggestedAt := some 0, suggestNotes := [] }

/-- An event that was never confirmed (`suggestedAt` unset), no participants. -/
def evFresh : Event :=
  { id := "e3", title := "f", start := 0, end_ := 60, tags := [],
    participants := [], suggestedAt := none, suggestNotes := [] }

/-- An unconfirmed event that already has one participant. -/
def evHalf : Event :=
  { id := "e4", title := "h", start := 0, end_ := 60, tags := [],
    participants := [{ kidId := "kA", status := 0 }], suggestedAt := none,
    suggestNotes := [] }

/-- A selection picking the two kids `kA` and `kB`. -/
def selW : List (String × Bool) := [("kA", true), ("kB", true)]

/-! ### Claim theorems -/

/-- Claim C1 (code bug).  `renameTagEverywhere("old", "new")` rewrites the
catalog, the roster's tag lists, and the kid-filter buffer, but the List View
filter buffer `listFilterTags` — one of the collections the claim says is
rewritten — still contains the old tag afterwards. -/
theorem c1_rename_misses_list_view_filter :
    (renameTagEverywhere stBug "old" "new").tagCatalog = [("Region", ["new", "south"])] ∧
    (renameTagEverywhere stBug "old" "new").kids =
      [{ id := "k1", name := "A", tags := ["new"], createdAt := 1 }] ∧
    (renameTagEverywhere stBug "old" "new").kidFilterTags = ["new"] ∧
    (renameTagEverywhere stBug "old" "new").listFilterTags = ["old"] := by
  decide

/-- Claim C2 (code bug).  `deleteTagEverywhere("old")` removes the tag from the
catalog, the roster and the kid-filter buffer, but the List View filter buffer
`listFilterTags` still contains the deleted tag afterwards. -/
theorem c2_delete_misses_list_view_filter :
    (deleteTagEverywhere stBug "old").tagCatalog = [("Region", ["south"])] ∧
    (deleteTagEverywhere stBug "old").kids =
      [{ id := "k1", name := "A", tags := [], createdAt := 1 }] ∧
    (deleteTagEverywhere stBug "old").kidFilterTags = [] ∧
    (deleteTagEverywhere stBug "old").listFilterTags = ["old"] := by
  decide

/-- Claim C9.  A create-event request whose title is blank after trimming, or
whose combined start is not strictly before its combined end, is rejected with
a message and leaves the state exactly as it was. -/
theorem c9_create_event_rejects_invalid (st : AppState) (newId : String)
    (h : clampStr st.evTitle = "" ∨
         combineDateTime st.evEndDate st.evEndTime ≤
           combineDateTime st.evStartDate st.evStartTime) :
    (createEvent st newId).1 = st ∧ ((createEvent st newId).2).isSome = true := by
  unfold createEvent
  by_cases ht : clampStr st.evTitle = ""
  · simp [ht]
  · rcases h with h | h
    · exact absurd h ht
    · simp [ht, if_pos h]

/-- Claim C9 witness: the blank-title rejection on the concrete state `stBug`. -/
theorem c9_witness : (createEvent stBug "id9").1 = stBug ∧
    ((createEvent stBug "id9").2).isSome = true :=
  c9_create_event_rejects_invalid stBug "id9" (Or.inl (by decide))

/-- Claim C5.  If the event at position `i` already has `suggestedAt = some b`,
any `confirmSuggested` call leaves that event's baseline exactly `some b`
(the JS update is `suggestedAt: e.suggestedAt ?? Date.now()`). -/
theorem c5_baseline_immutable (events : List Event) (evId : String)
    (sel : List (String × Bool)) (now : Nat) (i : Nat) (e : Event) (b : Nat)
    (hi : events[i]? = some e) (hb : e.suggestedAt = some b) :
    ((confirmSuggested events evId sel now)[i]?).map Event.suggestedAt =
      some (some b) := by
  unfold confirmSuggested
  cases h : events.find? (fun x => x.id == evId) with
  | none => simp [hi, hb]
  | some ev =>
      rw [List.getElem?_map, hi, Option.map_some', Option.map_some']
      by_cases hid : e.id = ev.id
      · simp [hid, hb]
      · simp [hid, hb]

/-- Claim C5 witness: a confirm on the already-baselined `evW` keeps 5. -/
theorem c5_witness :
    ((confirmSuggested [evW] "e2" selW 9)[0]?).map Event.suggestedAt =
      some (some 5) :=
  c5_baseline_immutable [evW] "e2" selW 9 0 evW 5 rfl rfl

/-- Lookup commutes with a map that does not change the tested field. -/
theorem find?_map_of_pred (f : Event → Event) (p : Event → Bool)
    (hp : ∀ e, p (f e) = p e) :
    ∀ l : List Event, (l.map f).find? p = (l.find? p).map f := by
  intro l
  induction l with
  | nil => rfl
  | cons a l ih =>
      by_cases h : p a = true
      · rw [List.map_cons, List.find?_cons_of_pos _ ((hp a).trans h),
          List.find?_cons_of_pos _ h, Option.map_some']
      · rw [List.map_cons, List.find?_cons_of_neg _ (by rw [hp a]; exact h),
          List.find?_cons_of_neg _ h]
        exact ih

/-- Claim C10.  If the looked-up event has no baseline and every picked id is
already among its participants, `confirmSuggested` sets `suggestedAt` to `now`
and leaves the participant list unchanged. -/
theorem c10_empty_confirm_sets_baseline (events : List Event) (evId : String)
    (sel : List (String × Bool)) (now : Nat) (ev : Event)
    (hfind : events.find? (fun e => e.id == evId) = some ev)
    (hnone : ev.suggestedAt = none)
    (hpick : ∀ i ∈ pickedOf sel, i ∈ existingIds ev) :
    ((confirmSuggested events evId sel now).find? (fun e => e.id == evId)).map
      (fun e => (e.suggestedAt, e.participants)) =
      some (some now, ev.participants) := by
  have htoAdd : toAddOf ev (pickedOf sel) = [] := by
    unfold toAddOf
    rw [List.filter_eq_nil_iff.mpr, List.map_nil]
    intro i hi
    simp only [Bool.not_eq_true', Bool.not_eq_false]
    exact List.elem_eq_true_of_mem (hpick i hi)
  unfold confirmSuggested
  rw [hfind]
  rw [find?_map_of_pred _ _ (fun e => by
    by_cases hid : (e.id == ev.id) = true
    · simp [hid]
    · simp [hid])]
  rw [hfind, Option.map_some', Option.map_some']
  have hself : (ev.id == ev.id) = true := beq_self_eq_true ev.id
  simp [hself, htoAdd, hnone]

/-- Claim C10 witness: confirming `evHalf` with only its already-present
participant picked sets the baseline to 11 and keeps the participant list. -/
theorem c10_witness :
    ((confirmSuggested [evHalf] "e4" [("kA", true)] 11).find?
        (fun e => e.id == "e4")).map (fun e => (e.suggestedAt, e.participants)) =
      some (some 11, evHalf.participants) :=
  c10_empty_confirm_sets_baseline [evHalf] "e4" [("kA", true)] 11 evHalf rfl rfl
    (by decide)

/-- The picked ids inherit distinctness from the selection object's keys
(JS object keys are unique). -/
theorem pickedOf_nodup (sel : List (String × Bool))
    (h : (sel.map (·.1)).Nodup) : (pickedOf sel).Nodup :=
  List.Nodup.sublist (List.Sublist.map _ (List.filter_sublist sel)) h

/-- The kid ids of the appended participations are the picked ids that were
not yet present. -/
theorem toAddOf_ids (ev : Event) (picked : List String) :
    (toAddOf ev picked).map (·.kidId) =
      picked.filter (fun i => !(existingIds ev).contains i) := by
  simp only [toAddOf, List.map_map]
  exact List.map_id _

/-- Confirming suggestions never changes any event's id. -/
theorem confirmSuggested_ids (events : List Event) (evId : String)
    (sel : List (String × Bool)) (now : Nat) :
    (confirmSuggested events evId sel now).map (·.id) = events.map (·.id) := by
  unfold confirmSuggested
  cases h : events.find? (fun e => e.id == evId) with
  | none => rfl
  | some ev =>
      rw [List.map_map]
      apply List.map_congr_left
      intro e _
      by_cases hid : e.id = ev.id <;> simp [Function.comp, hid]

/-- One `confirmSuggested` call preserves per-event distinctness of kid ids,
assuming distinct event ids and distinct selection keys. -/
theorem confirmSuggested_nodup (events : List Event) (evId : String)
    (sel : List (String × Bool)) (now : Nat)
    (hids : (events.map (·.id)).Nodup)
    (hpart : ∀ x ∈ events, (existingIds x).Nodup)
    (hsel : (sel.map (·.1)).Nodup) :
    ∀ e ∈ confirmSuggested events evId sel now, (existingIds e).Nodup := by
  intro e' he'
  unfold confirmSuggested at he'
  cases h : events.find? (fun x => x.id == evId) with
  | none => rw [h] at he'; exact hpart e' he'
  | some ev =>
      rw [h] at he'
      obtain ⟨e, he, rfl⟩ := List.mem_map.mp he'
      have hev : ev ∈ events := List.mem_of_find?_eq_some h
      by_cases hid : e.id = ev.id
      · have heq : e = ev := List.inj_on_of_nodup_map hids he hev hid
        subst heq
        rw [if_pos (by simp)]
        show ((e.participants ++ toAddOf e (pickedOf sel)).map (·.kidId)).Nodup
        rw [List.map_append]
        refine List.Nodup.append (hpart e he) ?_ ?_
        · rw [toAddOf_ids]
          exact (pickedOf_nodup sel hsel).filter _
        · intro a ha hb
          rw [toAddOf_ids] at hb
          have := List.of_mem_filter hb
          simp only [Bool.not_eq_true'] at this
          have h2 : a ∉ existingIds e := by simpa using this
          exact h2 ha
      · rw [if_neg (by simpa using hid)]
        exact hpart e he

/-- Claim C4.  With distinct event ids, per-event distinct participations and
JS-object pick sets, an event reachable by two consecutive `confirmSuggested`
calls (arbitrary, possibly overlapping picks) never holds two Participations
with the same `kidId`. -/
theorem c4_no_duplicate_assignment (events : List Event) (id1 id2 : String)
    (sel1 sel2 : List (String × Bool)) (n1 n2 : Nat) (e : Event)
    (hids : (events.map (·.id)).Nodup)
    (hpart : ∀ x ∈ events, (existingIds x).Nodup)
    (hsel1 : (sel1.map (·.1)).Nodup) (hsel2 : (sel2.map (·.1)).Nodup)
    (he : e ∈ confirmSuggested (confirmSuggested events id1 sel1 n1) id2 sel2 n2) :
    (existingIds e).Nodup := by
  have h1 := confirmSuggested_nodup events id1 sel1 n1 hids hpart hsel1
  have hids1 : ((confirmSuggested events id1 sel1 n1).map (·.id)).Nodup := by
    rw [confirmSuggested_ids]; exact hids
  exact confirmSuggested_nodup _ id2 sel2 n2 hids1 h1 hsel2 e he

/-- Claim C4 witness: confirming the same two picks twice on `evFresh` yields
one Participation per kid. -/
theorem c4_witness :
    (existingIds
      { id := "e3", title := "f", start := 0, end_ := 60, tags := [],
        participants := [{ kidId := "kA", status := 0 },
                         { kidId := "kB", status := 0 }],
        suggestedAt := some 4, suggestNotes := [] }).Nodup :=
  c4_no_duplicate_assignment [evFresh] "e3" "e3" selW selW 4 9 _
    (by decide) (by decide) (by decide) (by decide) (by decide)

/-- Claim C3 counterexample.  `evZero` has `suggestedAt` *set* (to the stored
timestamp 0) and a non-empty tag set, and `kidZ := kidW` satisfies every
condition of the claim (created after the baseline, unassigned, score 2 > 1),
yet the detector counts nobody: the code treats a zero baseline as unset
(`if (!baseline)`), so the claim as stated is false at this state. -/
theorem c3_counterexample :
    evZero.suggestedAt = some 0 ∧ evZero.tags ≠ [] ∧
    ([kidW].countP (fun k =>
        decide (0 < k.createdAt) && !(existingIds evZero).contains k.id &&
        decide (1 < intersectionCount k.tags evZero.tags)) = 1) ∧
    attentionCount evZero [kidW] = 0 := by
  decide

/-- Claim C3 (amended: a baseline stored as 0 — JS falsy — counts as unset).
With a set, non-zero baseline and a non-empty tag set the attention count is
exactly the number of kids created after the baseline, not assigned, with
score strictly above 1; with an unset or zero baseline, or no tags, it is 0. -/
theorem c3_attention_characterization (ev : Event) (kids : List Kid) :
    (∀ b, ev.suggestedAt = some b → 0 < b → ev.tags ≠ [] →
      attentionCount ev kids =
        kids.countP (fun k =>
          decide (b < k.createdAt) && !(existingIds ev).contains k.id &&
          decide (1 < intersectionCount k.tags ev.tags)))
    ∧ (ev.suggestedAt = none → attentionCount ev kids = 0)
    ∧ (ev.suggestedAt = some 0 → attentionCount ev kids = 0)
    ∧ (ev.tags = [] → attentionCount ev kids = 0) := by
  refine ⟨?_, ?_, ?_, ?_⟩
  · intro b hb hpos htags
    have hne : ev.tags.isEmpty = false := by
      cases h : ev.tags with
      | nil => exact absurd h htags
      | cons a l => rfl
    unfold attentionCount
    rw [hb]
    simp only [Option.getD_some, hne, Bool.false_eq_true, if_false,
      if_neg (Nat.pos_iff_ne_zero.mp hpos)]
    apply List.countP_congr
    intro k _
    simp only [Bool.and_eq_true]
    tauto
  · intro h; simp [attentionCount, h]
  · intro h; simp [attentionCount, h]
  · intro h; simp [attentionCount, h]

/-- Claim C3 witness: the amended characterization evaluated on `evW`/`kidW`
(baseline 5, kid created at 7, score 2). -/
theorem c3_witness :
    attentionCount evW [kidW] =
      [kidW].countP (fun k =>
        decide (5 < k.createdAt) && !(existingIds evW).contains k.id &&
        decide (1 < intersectionCount k.tags evW.tags)) :=
  (c3_attention_characterization evW [kidW]).1 5 rfl (by decide) (by decide)

/-- Length of a `filterMap` whose function is guarded by a predicate. -/
theorem length_filterMap_countP {α β : Type} (g : α → Option β) (p : α → Bool)
    (h : ∀ a, (g a).isSome = p a) :
    ∀ l : List α, (l.filterMap g).length = l.countP p := by
  intro l
  induction l with
  | nil => rfl
  | cons a l ih =>
      rw [List.filterMap_cons, List.countP_cons]
      cases hg : g a with
      | none =>
          have hp : p a = false := by rw [← h a, hg]; rfl
          simp [hp, ih]
      | some b =>
          have hp : p a = true := by rw [← h a, hg]; rfl
          simp [hp, ih]

/-- Claim C8.  For every event and roster, the badge count (`attentionById`
body) equals the length of the detail list (`detailNewMatches`): the two
detector passes agree on which participants qualify. -/
theorem c8_badge_matches_detail (ev : Event) (kids : List Kid) :
    attentionCount ev kids = (detailNewMatches ev kids).length := by
  unfold attentionCount detailNewMatches
  by_cases hb : ev.suggestedAt.getD 0 = 0
  · simp [hb]
  · by_cases ht : ev.tags.isEmpty
    · simp [hb, ht]
    · simp only [hb, ht, Bool.false_eq_true, if_false]
      rw [(List.perm_insertionSort rankLE _).length_eq]
      rw [length_filterMap_countP _ _ ?_]
      intro k
      by_cases h1 : k.id ∈ existingIds ev
      · simp [h1]
      · by_cases h2 : k.createdAt ≤ ev.suggestedAt.getD 0
        · simp [h1, h2, Nat.not_lt.mpr h2]
        · by_cases h3 : 1 < intersectionCount k.tags ev.tags
          · simp [h1, h2, h3, Nat.lt_of_not_le h2]
          · simp [h1, h2, h3, Nat.lt_of_not_le h2]

/-- Claim C6.  `suggestedKids` returns exactly the kids of the spec's
candidate list — not assigned, matching the query, positive score, each paired
with its score — as a permutation of the roster-order list, and its output is
sorted by descending score with ties by ascending name.  (Determinism is
immediate: the embedding is a pure function of its arguments.) -/
theorem c6_rank_candidates (ev : Event) (kids : List Kid) (q : String) :
    (suggestedKids ev kids q).Perm (specCandidates ev kids q) ∧
    List.Sorted rankLE (suggestedKids ev kids q) := by
  constructor
  · unfold suggestedKids specCandidates
    refine (List.perm_insertionSort rankLE _).trans ?_
    rw [List.filter_filter, List.filter_map, List.filter_filter]
    refine List.Perm.of_eq ?_
    congr 1
    apply List.filter_congr
    intro k _
    simp only [Function.comp]
    cases hA : (existingIds ev).contains k.id <;>
      cases hB : kidMatchesQuery (lowerStr (clampStr q)) k <;>
        cases hC : decide (0 < intersectionCount k.tags ev.tags) <;>
          simp [hA, hB, hC]
  · exact List.sorted_insertionSort rankLE _

/-- Claim C7 counterexample.  `evSpan` runs from day 0, 18:00 to day 1, 09:00,
so the claim puts it in the day-0 and day-1 buckets of *every* display
grouping.  The month grid (`eventsByDayBucket`) does that, but the List View
grouping produces only a day-0 bucket: day 1 has no bucket at all, so the
event does not appear in a day-1 bucket there. -/
theorem c7_counterexample :
    dayIndex evSpan.start = 0 ∧ dayIndex evSpan.end_ = 1 ∧
    evSpan ∈ eventsByDayBucket [evSpan] 1 ∧
    listViewGrouped (listViewEvents [evSpan] [] [] "") = [(0, [evSpan])] := by
  decide

/-- Claim C7 (amended: the every-touched-day property holds for the month
grid's `eventsByDay` buckets; the List View grouping places each event only in
its start day's bucket).  Month-grid buckets contain exactly the events
touching the day, with multiplicity, sorted ascending by start; List View
groups are sorted ascending by start and hold exactly the events starting on
the group's day, and every listed event has a group for its start day. -/
theorem c7_day_buckets (evs : List Event) (d : Nat) (ev : Event) :
    (ev ∈ eventsByDayBucket evs d ↔
      (ev ∈ evs ∧ dayIndex ev.start ≤ d ∧ d ≤ dayIndex ev.end_))
    ∧ List.Sorted startLE (eventsByDayBucket evs d)
    ∧ (eventsByDayBucket evs d).countP (fun x => decide (x = ev)) =
        (if dayIndex ev.start ≤ d ∧ d ≤ dayIndex ev.end_ then
          evs.countP (fun x => decide (x = ev)) else 0)
    ∧ (∀ g ∈ listViewGrouped evs, List.Sorted startLE g.2 ∧
        (ev ∈ g.2 ↔ (ev ∈ evs ∧ dayIndex ev.start = g.1)))
    ∧ (ev ∈ evs → ∃ g ∈ listViewGrouped evs, g.1 = dayIndex ev.start ∧ ev ∈ g.2) := by
  refine ⟨?_, List.sorted_insertionSort startLE _, ?_, ?_, ?_⟩
  · unfold eventsByDayBucket
    rw [List.mem_insertionSort, List.mem_filter]
    simp [touchesDay, and_assoc]
  · unfold eventsByDayBucket
    rw [(List.perm_insertionSort startLE _).countP_eq, List.countP_filter]
    by_cases hio : dayIndex ev.start ≤ d ∧ d ≤ dayIndex ev.end_
    · rw [if_pos hio]
      apply List.countP_congr
      intro x _
      simp only [Bool.and_eq_true, decide_eq_true_eq, touchesDay]
      constructor
      · rintro ⟨h1, _⟩; exact h1
      · rintro rfl; exact ⟨rfl, by simpa using hio⟩
    · rw [if_neg hio]
      rw [List.countP_eq_zero]
      rintro x hx hcontra
      simp only [Bool.and_eq_true, decide_eq_true_eq, touchesDay] at hcontra
      obtain ⟨rfl, h2⟩ := hcontra
      exact hio (by simpa using h2)
  · intro g hg
    unfold listViewGrouped at hg
    obtain ⟨d', _, rfl⟩ := List.mem_map.mp hg
    refine ⟨List.sorted_insertionSort startLE _, ?_⟩
    rw [List.mem_insertionSort, List.mem_filter]
    simp
  · intro hev
    unfold listViewGrouped
    refine ⟨(dayIndex ev.start,
      List.insertionSort startLE
        (evs.filter (fun x => dayIndex x.start == dayIndex ev.start))), ?_, rfl, ?_⟩
    · exact List.mem_map.mpr ⟨dayIndex ev.start,
        (List.mem_insertionSort _).mpr
          ((mem_dedupe _ _).mpr (List.mem_map.mpr ⟨ev, hev, rfl⟩)), rfl⟩
    · exact (List.mem_insertionSort _).mpr
        (List.mem_filter.mpr ⟨hev, by simp⟩)

/-- Claim C7 witness: the two-day event is in the month grid's day-1 bucket. -/
theorem c7_witness : evSpan ∈ eventsByDayBucket [evSpan] 1 :=
  (c7_day_buckets [evSpan] 1 evSpan).1.mpr (by decide)
